import Mathlib

/-!
Formal model of `src/scrap_data/dailymed_scaper.py` (DailyMed SPL XML scraper).

The Python module is embedded shallowly: pure computations become Lean
functions; the effects of each method (HTTP requests issued, files written,
sleeps performed, console return values) are made explicit as data returned by
the corresponding Lean function, with the outside world (HTTP responses,
filesystem behaviour) passed in as explicit parameters.  Strings are modelled
by Lean `String` with ASCII lower-casing (`Char.toLower`), byte bodies by
`String` contents.
-/

/-! ### Module-level constants (`dailymed_scaper.py`, lines 11-17) -/

/-- `RETRIES = 3` -/
def RETRIES : Nat := 3

/-- `BACKOFF_FACTOR = 0.3`, modelled exactly as the rational `3/10`. -/
def BACKOFF_FACTOR : ℚ := 3 / 10

/-- `STATUS_FORCELIST = (500, 502, 503, 504)` -/
def STATUS_FORCELIST : List Nat := [500, 502, 503, 504]

/-! ### Record model (`SPLRecord`, lines 41-44) -/

/-- `SPLRecord(BaseModel)`: a Structured Product Labelling record with fields
`setid : str` and `title : str`. -/
structure SPLRecord where
  setid : String
  title : String
deriving DecidableEq

/-! ### Retrying HTTP client (`get_retry_session`, lines 47-68) -/

/-- The retry policy configuration carried by the mounted `HTTPAdapter`:
total attempt budget, backoff base factor, transient status set, and the
HTTP methods eligible for retry. -/
structure RetryConfig where
  total : Nat
  backoff_factor : ℚ
  status_forcelist : List Nat
  allowed_methods : List String
deriving DecidableEq

/-- Embedding of `get_retry_session(retries, backoff_factor, status_forcelist)`.
The Python function ignores its three arguments, overwriting them with the
module constants before building the `Retry` object (lines 52-63); the model
keeps the same (ignored) parameters and returns the `Retry` configuration the
session is mounted with, including `allowed_methods=["HEAD","GET","OPTIONS"]`. -/
def get_retry_session (retries : Nat) (backoff_factor : ℚ)
    (status_forcelist : List Nat) : RetryConfig :=
  { total := RETRIES
    backoff_factor := BACKOFF_FACTOR
    status_forcelist := STATUS_FORCELIST
    allowed_methods := ["HEAD", "GET", "OPTIONS"] }

/-- Trace of one request executed through the retry-mounted session:
how many HTTP requests went on the wire, the backoff sleeps performed
between attempts (in seconds), and the final response status delivered to the
caller (`none` when the retry budget was exhausted and the request failed). -/
structure RetryTrace where
  requests : Nat
  sleeps : List ℚ
  result : Option Nat
deriving DecidableEq

/-- Modelled from the spec: the `urllib3.util.retry.Retry` machinery driven by
the configuration built in `get_retry_session` is third-party library code not
contained in this repository.  Following spec section 4.1 and the source
comment on line 54 (`sleep = backoff_factor * (2 ** (retry_number - 1))`): a
response whose status is in the transient forcelist is retried, only for
methods in `allowed_methods`, at most `total` times, sleeping
`backoff_factor * 2 ^ (retry_number - 1)` seconds before each retry; any other
response is returned to the caller unretried.  `responses` lists the statuses
the server would answer on successive attempts; `used` counts retries already
performed. -/
def retryRun (cfg : RetryConfig) (method : String) :
    List Nat → Nat → RetryTrace
  | [], _ => ⟨0, [], none⟩
  | s :: rest, used =>
    if s ∈ cfg.status_forcelist ∧ method ∈ cfg.allowed_methods then
      if used < cfg.total then
        let t := retryRun cfg method rest (used + 1)
        ⟨t.requests + 1, cfg.backoff_factor * 2 ^ used :: t.sleeps, t.result⟩
      else ⟨1, [], none⟩
    else ⟨1, [], some s⟩

/-- One request through the session built by `get_retry_session`:
start with zero retries used. -/
def retryExec (cfg : RetryConfig) (method : String) (responses : List Nat) :
    RetryTrace :=
  retryRun cfg method responses 0

/-- The retry configuration of the session built in
`DailyMedScraper.__init__` (line 80):
`get_retry_session(retries=RETRIES, backoff_factor=BACKOFF_FACTOR,
status_forcelist=STATUS_FORCELIST)`. -/
def sessionRetryConfig : RetryConfig :=
  get_retry_session RETRIES BACKOFF_FACTOR STATUS_FORCELIST

/-! ### Index fetching (`fetch_index`, lines 83-92) -/

/-- A JSON value, as far as the index entries need. -/
inductive JVal where
  | jstr (s : String)
  | jnum (n : Int)
  | jnull
deriving DecidableEq

/-- One entry of the index response's `data` array: a JSON object,
modelled as an association list from field names to values. -/
abbrev Entry := List (String × JVal)

/-- The fatal errors `fetch_index` can raise: the `ValueError` for a missing
`data` field (line 90), and the pydantic `ValidationError` from
`SPLRecord(**entry)` (line 88). -/
inductive FetchError where
  | missingDataField
  | validationError
deriving DecidableEq

/-- Embedding of `SPLRecord(**entry)` (line 88): pydantic validation requires
the fields `setid` and `title` to be present string values; extra fields are
ignored (pydantic default); a missing field or a non-string value raises a
`ValidationError`. -/
def validateEntry (e : Entry) : Except FetchError SPLRecord :=
  match e.lookup "setid", e.lookup "title" with
  | some (.jstr s), some (.jstr t) => .ok ⟨s, t⟩
  | _, _ => .error .validationError

/-- The list comprehension `[SPLRecord(**entry) for entry in data["data"]]`
(line 88): entries are validated left to right and the first
`ValidationError` aborts the whole comprehension. -/
def parseEntries : List Entry → Except FetchError (List SPLRecord)
  | [] => .ok []
  | e :: rest =>
    match validateEntry e with
    | .error err => .error err
    | .ok r =>
      match parseEntries rest with
      | .error err => .error err
      | .ok rs => .ok (r :: rs)

/-- Embedding of `fetch_index` (lines 83-92) from the point the JSON body of
the index response is in hand.  The input is the parsed JSON body, reduced to
what the function inspects: `some entries` when the top-level object has a
`data` field holding the list `entries`, `none` when the `data` field is
absent.  On success the function stores the validated records, in server
order, into `self.records`; the model returns that list. -/
def fetch_index (body : Option (List Entry)) :
    Except FetchError (List SPLRecord) :=
  match body with
  | none => .error .missingDataField
  | some entries => parseEntries entries

/-! ### Filtering (`filter_records`, lines 94-95) -/

/-- Embedding of Python `str.lower()` (ASCII model). -/
def pyLower (s : String) : String := ⟨s.data.map Char.toLower⟩

/-- Embedding of the Python substring test `needle in hay` on strings:
true iff `needle` occurs contiguously inside `hay` (the empty string occurs
in everything). -/
def containsSub (needle : List Char) : List Char → Bool
  | [] => needle.isEmpty
  | c :: rest => needle.isPrefixOf (c :: rest) || containsSub needle rest

/-- Embedding of `filter_records` (lines 94-95):
`[rec for rec in self.records if keyword.lower() in rec.title.lower()]`. -/
def filter_records (records : List SPLRecord) (keyword : String) :
    List SPLRecord :=
  records.filter fun rec =>
    containsSub (pyLower keyword).data (pyLower rec.title).data

/-! ### Downloading one record (`download_xml`, lines 97-111) -/

/-- The outcome of `self.session.get(url, timeout=10)` (line 101): either a
response with a status code and a body, or a raised exception (connection
error, timeout, retries exhausted). -/
inductive HttpOutcome where
  | response (status : Nat) (content : String)
  | raised
deriving DecidableEq

/-- The behaviour of the filesystem for the `open`/`write` on lines 104-105:
the write either succeeds or raises an `OSError`. -/
inductive WriteOutcome where
  | succeeds
  | fails
deriving DecidableEq

/-- The exceptions that can arise inside the `try` block of `download_xml`. -/
inductive PyExn where
  | netError
  | fsError
deriving DecidableEq

/-- What one call to `download_xml` did: the file it wrote, as
`some (path, bytes)` when a file was fully written (`none` otherwise), and
the boolean it returned. -/
structure DlResult where
  written : Option (String × String)
  retval : Bool
deriving DecidableEq

/-- `os.path.join(self.save_dir, f"{record.setid}.xml")` (lines 103, 117). -/
def xmlPath (save_dir setid : String) : String :=
  save_dir ++ "/" ++ setid ++ ".xml"

/-- The `try` block of `download_xml` (lines 100-106): perform the GET; on a
200 response open `<save_dir>/<setid>.xml` and write the body verbatim,
returning `True`; on any other status fall through to `return False`.  A
network exception or a filesystem exception escapes the block. -/
def download_xml_try (save_dir : String) (record : SPLRecord)
    (http : HttpOutcome) (w : WriteOutcome) : Except PyExn DlResult :=
  match http with
  | .raised => .error .netError
  | .response status content =>
    if status = 200 then
      match w with
      | .succeeds => .ok ⟨some (xmlPath save_dir record.setid, content), true⟩
      | .fails => .error .fsError
    else
      .ok ⟨none, false⟩

/-- Embedding of `download_xml` as seen by its caller (lines 97-111): the
`except Exception` handler (lines 109-110) catches every exception from the
`try` block and falls through to `return False`, so the call always returns
normally; `Except.ok` is that normal return. -/
def download_xmlE (save_dir : String) (record : SPLRecord)
    (http : HttpOutcome) (w : WriteOutcome) : Except PyExn DlResult :=
  match download_xml_try save_dir record http w with
  | .ok r => .ok r
  | .error _ => .ok ⟨none, false⟩

/-- `download_xml` as a total function (it never raises; see
`download_xmlE`). -/
def download_xml (save_dir : String) (record : SPLRecord)
    (http : HttpOutcome) (w : WriteOutcome) : DlResult :=
  match download_xml_try save_dir record http w with
  | .ok r => r
  | .error _ => ⟨none, false⟩

/-! ### Batch orchestration (`download_batch`, lines 114-124) -/

/-- The observable state accumulated by one `download_batch` run: the set of
files on disk (paths), the records for which a network download was invoked
(in order), the number of `time.sleep(delay)` calls performed, and the
reported success counter. -/
structure BatchState where
  files : List String
  calls : List SPLRecord
  sleeps : Nat
  count : Nat
deriving DecidableEq

/-- The truncation `records[:limit] if limit else records` (line 116):
`limit=None` and `limit=0` are falsy, so the whole list is used; a positive
limit takes that many leading records; a negative limit is the Python slice
`records[:limit]`, dropping that many trailing records. -/
def pyTruncate (records : List SPLRecord) (limit : Option Int) :
    List SPLRecord :=
  match limit with
  | none => records
  | some n =>
    if n = 0 then records
    else if 0 < n then records.take n.toNat
    else records.take (records.length - n.natAbs)

/-- One iteration of the `download_batch` loop (lines 116-123): compute the
expected path; if a file already exists there, do nothing (no request, no
sleep); otherwise invoke `download_xml` — recording the network call, adding
the written file (if any) to the filesystem, incrementing the counter on
success — and sleep once.  `env` gives, per record, the HTTP outcome and
filesystem behaviour the world would answer with. -/
def batchStep (save_dir : String)
    (env : SPLRecord → HttpOutcome × WriteOutcome)
    (st : BatchState) (record : SPLRecord) : BatchState :=
  let path := xmlPath save_dir record.setid
  if path ∈ st.files then st
  else
    let res := download_xml save_dir record (env record).1 (env record).2
    { files := match res.written with
        | some (p, _) => p :: st.files
        | none => st.files
      calls := st.calls ++ [record]
      sleeps := st.sleeps + 1
      count := st.count + (if res.retval then 1 else 0) }

/-- Embedding of `download_batch(records, limit, delay)` (lines 114-124):
fold the per-record step over the (possibly truncated) record list, starting
from the files `files0` already on disk, a zero counter and no calls.  The
final state's `count` is the reported `Completed {count} downloads`. -/
def download_batch (save_dir : String)
    (env : SPLRecord → HttpOutcome × WriteOutcome)
    (records : List SPLRecord) (limit : Option Int)
    (files0 : List String) : BatchState :=
  (pyTruncate records limit).foldl (batchStep save_dir env)
    ⟨files0, [], 0, 0⟩

/-! ### Concrete scenario inputs (spec section 8 test properties) -/

/-- The first record of the end-to-end scenario. -/
def recA : SPLRecord := ⟨"abc123", "Ibuprofen 200mg"⟩

/-- The second record of the end-to-end scenario. -/
def recB : SPLRecord := ⟨"xyz999", "Metformin 500mg"⟩

/-- The mocked 200 response body `b"<?xml version='1.0'?><doc/>"`. -/
def xmlBody : String := "<?xml version='1.0'?><doc/>"

/-- Index entry for `recA` keyed the way `SPLRecord` requires (`setid`). -/
def entryA : Entry := [("setid", .jstr "abc123"), ("title", .jstr "Ibuprofen 200mg")]

/-- Index entry for `recB` keyed the way `SPLRecord` requires (`setid`). -/
def entryB : Entry := [("setid", .jstr "xyz999"), ("title", .jstr "Metformin 500mg")]

/-- Index entry keyed `id` instead of `setid`, as spec section 6 describes the
index payload. -/
def entryAId : Entry := [("id", .jstr "abc123"), ("title", .jstr "Ibuprofen 200mg")]

/-- Index entry keyed `id` instead of `setid`, as spec section 6 describes the
index payload. -/
def entryBId : Entry := [("id", .jstr "xyz999"), ("title", .jstr "Metformin 500mg")]

/-- A world in which every document GET answers 200 with `xmlBody` and the
filesystem write succeeds. -/
def envXmlOk : SPLRecord → HttpOutcome × WriteOutcome :=
  fun _ => (.response 200 xmlBody, .succeeds)

/-! ## Helper lemmas -/

theorem containsSub_nil_needle (h : List Char) : containsSub [] h = true := by
  cases h <;> simp [containsSub, List.isPrefixOf]

theorem containsSub_iff (n h : List Char) :
    containsSub n h = true ↔ ∃ s t, h = s ++ n ++ t := by
  induction h with
  | nil =>
    constructor
    · intro he
      have hn : n = [] := by simpa [containsSub, List.isEmpty_iff] using he
      exact ⟨[], [], by simp [hn]⟩
    · rintro ⟨s, t, hst⟩
      have hn : n = [] := by
        rcases List.append_eq_nil.mp (List.append_eq_nil.mp hst.symm).1 with ⟨-, h2⟩
        exact h2
      simp [containsSub, hn]
  | cons c rest ih =>
    simp only [containsSub, Bool.or_eq_true, ih, List.isPrefixOf_iff_prefix]
    constructor
    · rintro (⟨t, ht⟩ | ⟨s, t, hst⟩)
      · exact ⟨[], t, by simp [ht]⟩
      · exact ⟨c :: s, t, by simp [hst]⟩
    · rintro ⟨s, t, hst⟩
      match s, hst with
      | [], hst => exact Or.inl ⟨t, by simpa using hst.symm⟩
      | c' :: s', hst =>
        refine Or.inr ⟨s', t, ?_⟩
        have h2 := hst
        simp only [List.cons_append, List.cons.injEq] at h2
        exact h2.2

/-! ## Claim theorems -/

/-- C1 fails on the code: `download_xml` performs no `<?xml` content check.
A 200 response whose body is `"hello"` — which does not start with the XML
declaration prefix — is nonetheless written verbatim to
`dailymed_xmls/abc123.xml` and `True` is returned, where the claim demands
that nothing be written and `False` be returned. -/
theorem C1_counterexample :
    download_xml "dailymed_xmls" recA (.response 200 "hello") .succeeds =
      ⟨some (xmlPath "dailymed_xmls" "abc123", "hello"), true⟩ ∧
    "<?xml".data.isPrefixOf "hello".data = false := by decide

/-- C1 (amended): for every Record, `download_xml` writes a file iff the HTTP
response status is 200 and the filesystem write succeeds — the response body
is never inspected; in that case the body bytes are written verbatim to
`<save_dir>/<setid>.xml` and true is returned; in every other case nothing is
written and false is returned. -/
theorem C1_amended_download_xml :
    ∀ save (r : SPLRecord) (http : HttpOutcome) (w : WriteOutcome),
      ((download_xml save r http w).written ≠ none ↔
        ∃ c, http = .response 200 c ∧ w = .succeeds) ∧
      (∀ c, http = .response 200 c → w = .succeeds →
        download_xml save r http w =
          ⟨some (xmlPath save r.setid, c), true⟩) ∧
      ((download_xml save r http w).written = none →
        (download_xml save r http w).retval = false) := by
  intro save r http w
  rcases http with ⟨status, content⟩ | _
  · by_cases hs : status = 200
    · subst hs
      cases w <;> simp [download_xml, download_xml_try, xmlPath]
    · cases w <;> simp [download_xml, download_xml_try, hs]
  · simp [download_xml, download_xml_try]

theorem C1_amended_witness :
    download_xml "dailymed_xmls" recA (.response 200 xmlBody) .succeeds =
      ⟨some (xmlPath "dailymed_xmls" recA.setid, xmlBody), true⟩ :=
  (C1_amended_download_xml "dailymed_xmls" recA (.response 200 xmlBody)
    .succeeds).2.1 xmlBody rfl rfl

/-- C2 fails on the code: index entries keyed `id` (as the spec's external
interface section describes) do not validate, because `SPLRecord` requires
the field name `setid`; `fetch_index` on that payload raises a
`ValidationError` instead of yielding two Records. -/
theorem C2_counterexample :
    fetch_index (some [entryAId, entryBId]) = .error .validationError := rfl

/-- C2 (amended): for the index response
`{"data": [{"setid":"abc123","title":"Ibuprofen 200mg"},
{"setid":"xyz999","title":"Metformin 500mg"}]}` — entries keyed `setid` and
`title`, as `SPLRecord` requires — `fetch_index` succeeds and yields two
Records; filtering by "ibuprofen" returns exactly the first record; and
downloading it with a 200 response whose body is
`b"<?xml version='1.0'?><doc/>"` creates file `abc123.xml` in the save
directory containing exactly those bytes and returns true. -/
theorem C2_amended_end_to_end :
    fetch_index (some [entryA, entryB]) = .ok [recA, recB] ∧
    filter_records [recA, recB] "ibuprofen" = [recA] ∧
    download_xml "dailymed_xmls" recA (.response 200 xmlBody) .succeeds =
      ⟨some ("dailymed_xmls/abc123.xml", xmlBody), true⟩ :=
  ⟨rfl, by decide, by decide⟩

/-- C5: `filter_records` returns the order-preserving subsequence of records
whose title, compared case-insensitively, contains the keyword as a
substring; `filter("IBU")` matches the title `"Ibuprofen 200mg Tablet"`, and
the empty keyword returns the full input list in the same order. -/
theorem C5_filter_records_correct :
    ∀ (records : List SPLRecord) (kw : String),
      List.Sublist (filter_records records kw) records ∧
      (∀ r, r ∈ filter_records records kw ↔
        r ∈ records ∧
          ∃ s t, (pyLower r.title).data = s ++ (pyLower kw).data ++ t) ∧
      filter_records records "" = records ∧
      filter_records [⟨"x", "Ibuprofen 200mg Tablet"⟩] "IBU" =
        [⟨"x", "Ibuprofen 200mg Tablet"⟩] := by
  intro records kw
  refine ⟨List.filter_sublist records, fun r => ?_, ?_, by decide⟩
  · simp only [filter_records, List.mem_filter, containsSub_iff]
  · have hz : (pyLower "").data = [] := rfl
    simp [filter_records, hz, containsSub_nil_needle, List.filter_true]

/-- C10: in `records[:limit] if limit else records` the value `limit=0` is
falsy, so a batch with `limit=0` does not truncate to zero records: the
entire record list is processed, exactly as with `limit=None`. -/
theorem C10_limit_zero_full_list :
    ∀ save env records files0,
      download_batch save env records (some 0) files0 =
        download_batch save env records none files0 ∧
      pyTruncate records (some 0) = records := by
  intro save env records files0
  exact ⟨by simp [download_batch, pyTruncate], by simp [pyTruncate]⟩

/-! ## Retry policy lemmas and C4 -/

theorem retryRun_requests_le (cfg : RetryConfig) (m : String) :
    ∀ (l : List Nat) (used : Nat), used ≤ cfg.total →
      (retryRun cfg m l used).requests + used ≤ cfg.total + 1 := by
  intro l
  induction l with
  | nil => intro used h; simpa [retryRun] using Nat.le_succ_of_le h
  | cons s rest ih =>
    intro used h
    by_cases hc : s ∈ cfg.status_forcelist ∧ m ∈ cfg.allowed_methods
    · by_cases hu : used < cfg.total
      · have ht := ih (used + 1) hu
        simp only [retryRun, hc, hu, if_true, and_self, ite_true]
        omega
      · simp only [retryRun, hc, hu, if_true, and_self, ite_true, ite_false]
        omega
    · simp only [retryRun, hc, ite_false]
      omega

theorem retryRun_sleeps_get (cfg : RetryConfig) (m : String) :
    ∀ (l : List Nat) (used i : Nat),
      i < (retryRun cfg m l used).sleeps.length →
      (retryRun cfg m l used).sleeps[i]? =
        some (cfg.backoff_factor * 2 ^ (used + i)) := by
  intro l
  induction l with
  | nil => intro used i h; simp [retryRun] at h
  | cons s rest ih =>
    intro used i h
    by_cases hc : s ∈ cfg.status_forcelist ∧ m ∈ cfg.allowed_methods
    · by_cases hu : used < cfg.total
      · simp only [retryRun, hc, hu, and_self, ite_true] at h ⊢
        cases i with
        | zero => simp
        | succ j =>
          have hj : j < (retryRun cfg m rest (used + 1)).sleeps.length := by
            simpa using h
          have := ih (used + 1) j hj
          simpa [Nat.add_assoc, Nat.add_comm 1 j] using this
      · simp [retryRun, hc, hu] at h
    · simp [retryRun, hc] at h

/-- C4: the client produced by `get_retry_session` retries only on a
transient status in `{500, 502, 503, 504}` and only for the methods HEAD,
GET, OPTIONS; it never performs more than the configured total of retries on
top of the initial request; the sleep before the k-th retry is
`backoff_factor * 2^(k-1)` seconds; a run of 503s answered by a 200 on the
final allowed attempt is an overall success; and a 404 is never retried. -/
theorem C4_retry_policy :
    ∀ (method : String) (responses : List Nat),
      (retryExec sessionRetryConfig method responses).requests ≤ RETRIES + 1 ∧
      (∀ s rest, responses = s :: rest →
        1 < (retryExec sessionRetryConfig method responses).requests →
        s ∈ STATUS_FORCELIST ∧ method ∈ ["HEAD", "GET", "OPTIONS"]) ∧
      (∀ i, i < (retryExec sessionRetryConfig method responses).sleeps.length →
        (retryExec sessionRetryConfig method responses).sleeps[i]? =
          some (BACKOFF_FACTOR * 2 ^ i)) ∧
      retryExec sessionRetryConfig "GET" [503, 503, 503, 200] =
        ⟨4, [3/10, 3/5, 6/5], some 200⟩ ∧
      (∀ rest, retryExec sessionRetryConfig method (404 :: rest) =
        ⟨1, [], some 404⟩) := by
  intro method responses
  have hconc : retryExec sessionRetryConfig "GET" [503, 503, 503, 200] =
      ⟨4, [3/10, 3/5, 6/5], some 200⟩ := by
    simp only [retryExec, retryRun, sessionRetryConfig, get_retry_session,
      STATUS_FORCELIST, BACKOFF_FACTOR, RETRIES]
    norm_num
  refine ⟨?_, ?_, ?_, hconc, ?_⟩
  · simpa [retryExec] using
      retryRun_requests_le sessionRetryConfig method responses 0 (Nat.zero_le _)
  · intro s rest hres hgt
    subst hres
    by_cases hc : s ∈ sessionRetryConfig.status_forcelist ∧
        method ∈ sessionRetryConfig.allowed_methods
    · exact hc
    · exfalso
      simp [retryExec, retryRun, hc] at hgt
  · intro i hi
    simpa using retryRun_sleeps_get sessionRetryConfig method responses 0 i hi
  · intro rest
    have h404 : (404 : Nat) ∉ sessionRetryConfig.status_forcelist := by decide
    simp [retryExec, retryRun, h404]

theorem C4_witness :
    ((503 : Nat) ∈ STATUS_FORCELIST ∧ "GET" ∈ ["HEAD", "GET", "OPTIONS"]) ∧
    (retryExec sessionRetryConfig "GET" [503, 200]).sleeps[0]? =
      some (BACKOFF_FACTOR * 2 ^ 0) :=
  ⟨(C4_retry_policy "GET" [503, 200]).2.1 503 [200] rfl (by decide),
   (C4_retry_policy "GET" [503, 200]).2.2.1 0 (by decide)⟩

/-! ## Index-fetch lemmas and C6 -/

theorem parseEntries_error_iff (entries : List Entry) :
    (∃ err, parseEntries entries = .error err) ↔
      ∃ e ∈ entries, ∃ err, validateEntry e = .error err := by
  induction entries with
  | nil => simp [parseEntries]
  | cons e rest ih =>
    cases hv : validateEntry e with
    | error err =>
      simp only [parseEntries, hv]
      constructor
      · intro _; exact ⟨e, by simp, err, hv⟩
      · intro _; exact ⟨err, rfl⟩
    | ok r =>
      cases hp : parseEntries rest with
      | error err2 =>
        simp only [parseEntries, hv, hp]
        constructor
        · intro _
          rcases ih.mp ⟨err2, hp⟩ with ⟨e', he', err', hv'⟩
          exact ⟨e', by simp [he'], err', hv'⟩
        · intro _; exact ⟨err2, rfl⟩
      | ok rs =>
        simp only [parseEntries, hv, hp]
        constructor
        · rintro ⟨err, h⟩; cases h
        · rintro ⟨e', he', err', hv'⟩
          rcases List.mem_cons.mp he' with rfl | hmem
          · rw [hv'] at hv; cases hv
          · rcases ih.mpr ⟨e', hmem, err', hv'⟩ with ⟨err2, hp2⟩
            rw [hp2] at hp; cases hp

theorem parseEntries_ok_forall₂ (entries : List Entry) :
    ∀ recs, parseEntries entries = .ok recs →
      List.Forall₂ (fun e r => validateEntry e = .ok r) entries recs := by
  induction entries with
  | nil =>
    intro recs h
    cases h
    exact List.Forall₂.nil
  | cons e rest ih =>
    intro recs h
    cases hv : validateEntry e with
    | error err =>
      simp only [parseEntries, hv] at h
      exact Except.noConfusion h
    | ok r =>
      cases hp : parseEntries rest with
      | error err2 =>
        simp only [parseEntries, hv, hp] at h
        exact Except.noConfusion h
      | ok rs =>
        simp only [parseEntries, hv, hp] at h
        cases h
        exact List.Forall₂.cons hv (ih rs hp)

/-- C6: `fetch_index` raises a fatal error exactly when the JSON body lacks
the `data` field or some entry of `data` fails `SPLRecord` validation; on
success it sets the record list to the ordered list of Records parsed from
the `data` entries, in server order. -/
theorem C6_fetch_index_fatal_iff :
    fetch_index none = .error .missingDataField ∧
    (∀ entries, (∃ err, fetch_index (some entries) = .error err) ↔
      ∃ e ∈ entries, ∃ err, validateEntry e = .error err) ∧
    (∀ entries recs, fetch_index (some entries) = .ok recs →
      List.Forall₂ (fun e r => validateEntry e = .ok r) entries recs) := by
  refine ⟨rfl, ?_, ?_⟩
  · intro entries
    simpa [fetch_index] using parseEntries_error_iff entries
  · intro entries recs h
    exact parseEntries_ok_forall₂ entries recs h

theorem C6_witness :
    List.Forall₂ (fun e r => validateEntry e = .ok r) [entryA, entryB]
      [recA, recB] :=
  C6_fetch_index_fatal_iff.2.2 [entryA, entryB] [recA, recB] rfl

/-! ## C7: download_xml never raises -/

/-- C7: for every Record, `download_xml` never raises to its caller: the
`try` block covers both the request and the file write, so a non-200 status,
a network error or timeout, and a filesystem error during the write all
result in a normal `False` return, and the batch loop continues. -/
theorem C7_download_xml_total :
    ∀ save (r : SPLRecord) (http : HttpOutcome) (w : WriteOutcome),
      download_xmlE save r http w = .ok (download_xml save r http w) ∧
      ((http = .raised ∨ (∀ c, http ≠ .response 200 c) ∨ w = .fails) →
        download_xml save r http w = ⟨none, false⟩) := by
  intro save r http w
  constructor
  · cases hx : download_xml_try save r http w <;>
      simp [download_xmlE, download_xml, hx]
  · intro hfail
    rcases http with ⟨status, content⟩ | _
    · rcases hfail with h | h | h
      · cases h
      · have hs : status ≠ 200 := by
          intro h200
          subst h200
          exact (h content) rfl
        simp [download_xml, download_xml_try, hs]
      · subst h
        by_cases hs : status = 200
        · subst hs; simp [download_xml, download_xml_try]
        · simp [download_xml, download_xml_try, hs]
    · simp [download_xml, download_xml_try]

theorem C7_witness :
    download_xml "dailymed_xmls" recA .raised .succeeds = ⟨none, false⟩ :=
  (C7_download_xml_total "dailymed_xmls" recA .raised .succeeds).2 (Or.inl rfl)

/-! ## C8: the setid invariant -/

/-- C8 fails on the code: `SPLRecord` validation does not require a non-empty
`setid`; an index entry whose `setid` is the empty string validates, so a
Record with an empty id is constructed from an index entry. -/
theorem C8_counterexample :
    fetch_index (some [[("setid", JVal.jstr ""), ("title", JVal.jstr "Some Title")]]) =
      .ok [⟨"", "Some Title"⟩] ∧
    (SPLRecord.mk "" "Some Title").setid.length = 0 :=
  ⟨rfl, rfl⟩

/-- C8 (amended): a Record constructed from an index entry has its `setid`
validated only as a string — it may be empty — and the `setid` is the sole
key used to form the on-disk filename `<save_dir>/<setid>.xml`. -/
theorem C8_amended_setid_sole_key :
    (∀ (e : Entry) (r : SPLRecord), validateEntry e = .ok r →
      e.lookup "setid" = some (.jstr r.setid) ∧
      e.lookup "title" = some (.jstr r.title)) ∧
    (∀ save (r : SPLRecord) (http : HttpOutcome) (w : WriteOutcome) p c,
      (download_xml save r http w).written = some (p, c) →
      p = xmlPath save r.setid) ∧
    (∀ save setid, xmlPath save setid = save ++ "/" ++ setid ++ ".xml") := by
  refine ⟨?_, ?_, fun save setid => rfl⟩
  · intro e r h
    cases h1 : List.lookup "setid" e with
    | none => simp [validateEntry, h1] at h
    | some v1 =>
      cases h2 : List.lookup "title" e with
      | none => cases v1 <;> simp [validateEntry, h1, h2] at h
      | some v2 =>
        cases v1 with
        | jstr s =>
          cases v2 with
          | jstr t =>
            simp only [validateEntry, h1, h2, Except.ok.injEq] at h
            subst h
            exact ⟨rfl, rfl⟩
          | jnum n => simp [validateEntry, h1, h2] at h
          | jnull => simp [validateEntry, h1, h2] at h
        | jnum n => cases v2 <;> simp [validateEntry, h1, h2] at h
        | jnull => cases v2 <;> simp [validateEntry, h1, h2] at h
  · intro save r http w p c h
    rcases http with ⟨status, content⟩ | _
    · by_cases hs : status = 200
      · subst hs
        cases w with
        | succeeds =>
          simp [download_xml, download_xml_try] at h
          exact h.1.symm
        | fails => simp [download_xml, download_xml_try] at h
      · simp [download_xml, download_xml_try, hs] at h
    · simp [download_xml, download_xml_try] at h

theorem C8_witness :
    (entryA.lookup "setid" = some (.jstr recA.setid) ∧
      entryA.lookup "title" = some (.jstr recA.title)) ∧
    "dailymed_xmls/abc123.xml" = xmlPath "dailymed_xmls" recA.setid :=
  ⟨C8_amended_setid_sole_key.1 entryA recA rfl,
   C8_amended_setid_sole_key.2.1 "dailymed_xmls" recA
     (.response 200 xmlBody) .succeeds "dailymed_xmls/abc123.xml" xmlBody rfl⟩

/-! ## Batch orchestration lemmas, C3 and C9 -/

theorem batchStep_skip (save : String)
    (env : SPLRecord → HttpOutcome × WriteOutcome)
    (st : BatchState) (r : SPLRecord)
    (h : xmlPath save r.setid ∈ st.files) :
    batchStep save env st r = st := by
  simp [batchStep, h]

theorem batchStep_calls_of_miss (save : String)
    (env : SPLRecord → HttpOutcome × WriteOutcome)
    (st : BatchState) (r : SPLRecord)
    (h : xmlPath save r.setid ∉ st.files) :
    (batchStep save env st r).calls = st.calls ++ [r] := by
  simp [batchStep, h]

theorem batchStep_count_of_miss (save : String)
    (env : SPLRecord → HttpOutcome × WriteOutcome)
    (st : BatchState) (r : SPLRecord)
    (h : xmlPath save r.setid ∉ st.files) :
    (batchStep save env st r).count = st.count +
      (if (download_xml save r (env r).1 (env r).2).retval then 1 else 0) := by
  simp [batchStep, h]

theorem batchStep_files_mono (save : String)
    (env : SPLRecord → HttpOutcome × WriteOutcome)
    (st : BatchState) (r : SPLRecord) (p : String)
    (hp : p ∈ st.files) : p ∈ (batchStep save env st r).files := by
  by_cases h : xmlPath save r.setid ∈ st.files
  · simpa [batchStep, h] using hp
  · cases hw : (download_xml save r (env r).1 (env r).2).written with
    | none => simpa [batchStep, h, hw] using hp
    | some pc =>
      obtain ⟨q, cont⟩ := pc
      simp [batchStep, h, hw]
      exact Or.inr hp

theorem batchFold_files_mono (save : String)
    (env : SPLRecord → HttpOutcome × WriteOutcome) :
    ∀ (l : List SPLRecord) (st : BatchState) (p : String),
      p ∈ st.files → p ∈ (l.foldl (batchStep save env) st).files := by
  intro l
  induction l with
  | nil => intro st p hp; simpa using hp
  | cons a l ih =>
    intro st p hp
    simp only [List.foldl_cons]
    exact ih _ p (batchStep_files_mono save env st a p hp)

theorem batchFold_skip_not_called (save : String)
    (env : SPLRecord → HttpOutcome × WriteOutcome) :
    ∀ (l : List SPLRecord) (st : BatchState) (r : SPLRecord),
      xmlPath save r.setid ∈ st.files →
      r ∈ (l.foldl (batchStep save env) st).calls → r ∈ st.calls := by
  intro l
  induction l with
  | nil => intro st r _ h; simpa using h
  | cons a l ih =>
    intro st r hfile hcall
    simp only [List.foldl_cons] at hcall
    by_cases ha : xmlPath save a.setid ∈ st.files
    · rw [batchStep_skip save env st a ha] at hcall
      exact ih st r hfile hcall
    · have hst' : r ∈ (batchStep save env st a).calls :=
        ih _ r (batchStep_files_mono save env st a _ hfile) hcall
      rw [batchStep_calls_of_miss save env st a ha] at hst'
      rcases List.mem_append.mp hst' with h | h
      · exact h
      · exfalso
        have har : r = a := by simpa using h
        rw [har] at hfile
        exact ha hfile

theorem batchFold_count_invariant (save : String)
    (env : SPLRecord → HttpOutcome × WriteOutcome) :
    ∀ (l : List SPLRecord) (st : BatchState),
      st.count = (st.calls.filter (fun r =>
        (download_xml save r (env r).1 (env r).2).retval)).length →
      (l.foldl (batchStep save env) st).count =
        (((l.foldl (batchStep save env) st).calls).filter (fun r =>
          (download_xml save r (env r).1 (env r).2).retval)).length := by
  intro l
  induction l with
  | nil => intro st h; simpa using h
  | cons a l ih =>
    intro st h
    simp only [List.foldl_cons]
    apply ih
    by_cases ha : xmlPath save a.setid ∈ st.files
    · rw [batchStep_skip save env st a ha]; exact h
    · rw [batchStep_calls_of_miss save env st a ha,
        batchStep_count_of_miss save env st a ha, h,
        List.filter_append, List.length_append]
      congr 1
      by_cases hpa : (download_xml save a (env a).1 (env a).2).retval
      · simp [hpa]
      · simp [hpa]

theorem batchFold_calls_sublist (save : String)
    (env : SPLRecord → HttpOutcome × WriteOutcome) :
    ∀ (l : List SPLRecord) (st : BatchState),
      ∃ l', List.Sublist l' l ∧
        (l.foldl (batchStep save env) st).calls = st.calls ++ l' := by
  intro l
  induction l with
  | nil => intro st; exact ⟨[], List.Sublist.refl [], by simp⟩
  | cons a l ih =>
    intro st
    simp only [List.foldl_cons]
    by_cases ha : xmlPath save a.setid ∈ st.files
    · rcases ih st with ⟨l', hsub, hcalls⟩
      rw [batchStep_skip save env st a ha]
      exact ⟨l', List.Sublist.cons a hsub, hcalls⟩
    · rcases ih (batchStep save env st a) with ⟨l', hsub, hcalls⟩
      refine ⟨a :: l', List.Sublist.cons₂ a hsub, ?_⟩
      rw [hcalls, batchStep_calls_of_miss save env st a ha, List.append_assoc]
      rfl

/-- C3: a Record whose file already exists is skipped entirely — the batch
step leaves the state untouched (no network request, no sleep); consequently
on a second `download_batch` run over the same record list and save
directory, every record whose file already exists after the first run makes
no network call. -/
theorem C3_skip_and_resume :
    (∀ save (env : SPLRecord → HttpOutcome × WriteOutcome)
        (st : BatchState) (r : SPLRecord),
      xmlPath save r.setid ∈ st.files → batchStep save env st r = st) ∧
    (∀ save (env : SPLRecord → HttpOutcome × WriteOutcome)
        records limit files0 (r : SPLRecord),
      xmlPath save r.setid ∈
        (download_batch save env records limit files0).files →
      r ∉ (download_batch save env records limit
            (download_batch save env records limit files0).files).calls) := by
  constructor
  · exact fun save env st r h => batchStep_skip save env st r h
  · intro save env records limit files0 r hfile hcall
    have h := batchFold_skip_not_called save env (pyTruncate records limit)
      ⟨(download_batch save env records limit files0).files, [], 0, 0⟩ r
      hfile hcall
    simpa using h

theorem C3_witness :
    batchStep "dailymed_xmls" envXmlOk
        ⟨["dailymed_xmls/abc123.xml"], [], 0, 0⟩ recA =
      ⟨["dailymed_xmls/abc123.xml"], [], 0, 0⟩ ∧
    recA ∉ (download_batch "dailymed_xmls" envXmlOk [recA] none
        (download_batch "dailymed_xmls" envXmlOk [recA] none []).files).calls :=
  ⟨C3_skip_and_resume.1 "dailymed_xmls" envXmlOk
      ⟨["dailymed_xmls/abc123.xml"], [], 0, 0⟩ recA (by decide),
   C3_skip_and_resume.2 "dailymed_xmls" envXmlOk [recA] none [] recA
      (by decide)⟩

/-- C9: with a positive limit `n`, `download_batch` processes only the first
`n` records of the sequence, in order — every network call is made to one of
those records, in sequence order — and the reported completed count equals
the number of successful downloads; with `limit=1` over a 2-record list it
downloads only the first record and reports a count of 1. -/
theorem C9_limit_and_count :
    ∀ save (env : SPLRecord → HttpOutcome × WriteOutcome)
      records files0 (n : Int), 0 < n →
      pyTruncate records (some n) = records.take n.toNat ∧
      List.Sublist (download_batch save env records (some n) files0).calls
        (records.take n.toNat) ∧
      (download_batch save env records (some n) files0).count =
        ((download_batch save env records (some n) files0).calls.filter
          (fun r => (download_xml save r (env r).1 (env r).2).retval)).length ∧
      download_batch "dailymed_xmls" envXmlOk [recA, recB] (some 1) [] =
        ⟨["dailymed_xmls/abc123.xml"], [recA], 1, 1⟩ := by
  intro save env records files0 n hn
  have h0 : n ≠ 0 := by omega
  have htr : pyTruncate records (some n) = records.take n.toNat := by
    simp [pyTruncate, h0, hn]
  refine ⟨htr, ?_, ?_, by decide⟩
  · rcases batchFold_calls_sublist save env (pyTruncate records (some n))
        ⟨files0, [], 0, 0⟩ with ⟨l', hsub, hcalls⟩
    have hc : (download_batch save env records (some n) files0).calls = l' := by
      simpa [download_batch] using hcalls
    rw [hc, ← htr]
    exact hsub
  · have h := batchFold_count_invariant save env
      (pyTruncate records (some n)) ⟨files0, [], 0, 0⟩ (by simp)
    simpa [download_batch] using h

theorem C9_witness :
    pyTruncate [recA, recB] (some 1) = [recA, recB].take (1 : Int).toNat ∧
    download_batch "dailymed_xmls" envXmlOk [recA, recB] (some 1) [] =
      ⟨["dailymed_xmls/abc123.xml"], [recA], 1, 1⟩ :=
  ⟨(C9_limit_and_count "dailymed_xmls" envXmlOk [recA, recB] [] 1
      (by decide)).1,
   (C9_limit_and_count "dailymed_xmls" envXmlOk [recA, recB] [] 1
      (by decide)).2.2.2⟩
